import Mathlib

/-!
# Verification of the genlc Gnet protocol stack

Shallow embedding of the genlc repository's core protocol code
(`genlc/gnet.py`, `genlc/transport.py`, `genlc/sam.py`) and proofs of the
specification's testable properties.  Byte strings are modelled as
`List Nat` (each element a byte value), 16-bit quantities as `Nat`
reduced modulo `2 ^ 16` where overflow matters, and Python exceptions as
`Except`/`Option` results.
-/

set_option maxRecDepth 100000

namespace Genlc

/-! ## Constants (genlc/const.py)

`const.py` itself is not among the provided sources; the values below are
pinned by the docstrings in `gnet.py` (terminator `0x7E`, multicast `0xF0`,
broadcast `0xFF`) and by the unit tests (`GNET_ACK` parses as status byte
`0x09` in `test_gnet.py`; `race` sends `GNetMessage(0xFF, 0xFE)` in
`test_sam.py`). -/

/-- Terminator byte, always `0x7E` (gnet.py docstring). -/
def GNET_TERM : Nat := 0x7E

/-- Acknowledge status code: `test_gnet.py` parses a response with status
byte `0x09` successfully and asserts it equals `const.GNET_ACK`. -/
def GNET_ACK : Nat := 0x09

/-- Modelled from the spec: `const.GNET_TIMEOUT`, the designated timeout
status code.  `const.py` is missing from the sources and neither the spec
nor the tests pin its numeric value; the spec only requires one dedicated
timeout code distinct from the ack code, so an arbitrary distinct byte
value is used here. -/
def GNET_TIMEOUT : Nat := 0x15

/-- Gnet broadcast address (all devices), `0xFF` (gnet.py docstring and
`test_sam.py`). -/
def GNET_BROADCAST_ADDR : Nat := 0xFF

/-- Gnet multicast address (all monitors, before assignment), `0xF0`
(gnet.py docstring). -/
def GNET_MULTICAST_ADDR : Nat := 0xF0

/-- Discovery command code: `test_sam.py` asserts `race` sends
`GNetMessage(0xFF, 0xFE)`. -/
def CID_RACE : Nat := 0xFE

/-! ## CRC-16/GSM (libscrc.gsm16)

Polynomial `0x1021`, initial value `0x0000`, final XOR `0xFFFF`, no
reflection; computed MSB-first. -/

/-- One shift-and-conditionally-xor round of the MSB-first CRC-16
computation with polynomial `0x1021`, truncated to 16 bits. -/
def crc16Round (c : Nat) : Nat :=
  if c &&& 0x8000 ≠ 0 then ((c <<< 1) ^^^ 0x1021) % 65536 else (c <<< 1) % 65536

/-- Iterate `crc16Round` a given number of times. -/
def crc16Rounds : Nat → Nat → Nat
  | 0, c => c
  | n + 1, c => crc16Rounds n (crc16Round c)

/-- Fold one input byte into the running CRC: xor it into the high byte
and run eight polynomial-division rounds. -/
def crc16Step (crc b : Nat) : Nat :=
  crc16Rounds 8 ((crc ^^^ (b <<< 8)) % 65536)

/-- `libscrc.gsm16`: CRC-16/GSM of a byte string (init 0, final xor
`0xFFFF`). -/
def gsm16 (data : List Nat) : Nat :=
  (data.foldl crc16Step 0) ^^^ 0xFFFF

/-- `int.from_bytes(_, byteorder="big")`: big-endian interpretation of a
byte string as an unsigned integer. -/
def fromBytesBE (l : List Nat) : Nat :=
  l.foldl (fun a b => a * 256 + b) 0

/-- `int.from_bytes(_, byteorder="big", signed=True)`: big-endian
two's-complement interpretation of a byte string. -/
def sintFromBytesBE (l : List Nat) : Int :=
  let u := fromBytesBE l
  if u < 2 ^ (8 * l.length - 1) then (u : Int) else (u : Int) - 2 ^ (8 * l.length)

/-! ## Frame codec (genlc/gnet.py) -/

/-- `GNetMessage.construct`: the built frame bytes
`address | command | data | CRC-16/GSM (big-endian, 2 bytes) | 0x7E`. -/
def construct (address command : Nat) (data : List Nat) : List Nat :=
  let body := address :: command :: data
  let cs := gsm16 body
  body ++ [cs / 256, cs % 256, GNET_TERM]

/-- Error outcomes of `GNetResponseMessage.parse` (the exceptions it can
raise). -/
inductive ParseError where
  /-- `GNetTimeoutException` (status byte equals `GNET_TIMEOUT`). -/
  | timeout : ParseError
  /-- `GNetException(f"Response code ...")` (status byte neither timeout
  nor ack). -/
  | protocolError (code : Nat) : ParseError
  /-- `GNetException("Response message does not end with terminator byte")`. -/
  | malformedFrame : ParseError
  /-- `GNetException("Response checksum ... does not match ...")`. -/
  | checksumError : ParseError
  /-- The Python code would fail on a message of fewer than two bytes
  (falsy-`msg` assertion, or `IndexError` on `msg[1]`). -/
  | tooShort : ParseError
deriving DecidableEq, Repr

/-- `GNetResponseMessage.parse`: reads `msg[1]` as the status byte,
signals timeout/protocol errors, verifies the trailing terminator, checks
the CRC over `msg[:-3]` against the big-endian field `msg[-3:-1]`, and on
success returns the payload `msg[2:-3]`. -/
def parse (msg : List Nat) : Except ParseError (List Nat) :=
  match msg with
  | _ :: code :: _ =>
    if code = GNET_TIMEOUT then .error .timeout
    else if code ≠ GNET_ACK then .error (.protocolError code)
    else if msg.getLast? ≠ some GNET_TERM then .error .malformedFrame
    else
      let checksum := fromBytesBE ((msg.drop (msg.length - 3)).dropLast)
      let calculated := gsm16 (msg.take (msg.length - 3))
      if calculated ≠ checksum then .error .checksumError
      else .ok ((msg.take (msg.length - 3)).drop 2)
  | _ => .error .tooShort

/-! ## Byte stuffing (USBTransport.escape / USBTransport.unescape) -/

/-- `bytes.replace` with a single-byte needle: every occurrence of byte
`b` is replaced by the byte string `r`. -/
def replaceByte (b : Nat) (r : List Nat) : List Nat → List Nat
  | [] => []
  | c :: cs => if c = b then r ++ replaceByte b r cs else c :: replaceByte b r cs

/-- `bytes.replace` with a two-byte needle `p1 p2` and a single-byte
replacement `q`, scanning left to right without overlap. -/
def replacePair (p1 p2 q : Nat) : List Nat → List Nat
  | [] => []
  | [c] => [c]
  | c1 :: c2 :: cs =>
    if c1 = p1 ∧ c2 = p2 then q :: replacePair p1 p2 q cs
    else c1 :: replacePair p1 p2 q (c2 :: cs)

/-- The two sequential single-byte replacements `escape` applies to the
frame body (everything before the final terminator):
`0x7D → 0x7D 0x5D`, then `0x7E → 0x7D 0x5E`. -/
def escapeBody (l : List Nat) : List Nat :=
  replaceByte 0x7E [0x7D, 0x5E] (replaceByte 0x7D [0x7D, 0x5D] l)

/-- `USBTransport.escape`: asserts the message ends with the terminator
(`none` models the assertion failure), PPP-stuffs everything before the
final terminator, and reappends the terminator. -/
def escape (msg : List Nat) : Option (List Nat) :=
  if msg.getLast? = some GNET_TERM then
    some (escapeBody msg.dropLast ++ [GNET_TERM])
  else none

/-- `USBTransport.unescape`: replaces `0x7D 0x5E → 0x7E`, then
`0x7D 0x5D → 0x7D`. -/
def unescape (msg : List Nat) : List Nat :=
  replacePair 0x7D 0x5D 0x7D (replacePair 0x7D 0x5E 0x7E msg)

/-- Synthetic ack wrapper: extracts the payload field of a built frame
(bytes strictly between header and trailing checksum+terminator) and
reframes it as an ack-status response message, the shape
`GNetResponseMessage.parse` expects (cf. `test_gnet.py`). -/
def ackWrap (frame : List Nat) : List Nat :=
  construct 0x01 GNET_ACK ((frame.take (frame.length - 3)).drop 2)

/-! ## Segmented transport (USBTransport._read, genlc/transport.py) -/

/-- `USBTransport.MAX_SEGMENTS`. -/
def MAX_SEGMENTS : Nat := 3

/-- `USBTransport.MAX_PACKET_LEN`. -/
def MAX_PACKET_LEN : Nat := 64

/-- `bytes.rstrip(b"\x00")`: strip trailing NUL bytes. -/
def rstripNul (l : List Nat) : List Nat :=
  (l.reverse.dropWhile (fun b => b = 0)).reverse

/-- The loop guard applied to one raw segment:
`segment.rstrip(b"\x00").endswith(bytes((GNET_TERM,)))`. -/
def segDone (seg : List Nat) : Bool :=
  (rstripNul seg).getLast? == some GNET_TERM

/-- The `while not segments or not segments[-1]...` guard (negated):
true when at least one segment was read and the last one, NUL-stripped,
ends with the terminator. -/
def segsDone (acc : List (List Nat)) : Bool :=
  match acc.getLast? with
  | some last => segDone last
  | none => false

/-- Error outcomes of `USBTransport._read`. -/
inductive ReadError where
  /-- `GNetException("Maximum number of response segments ... exceeded.")`. -/
  | tooManySegments : ReadError
  /-- One of the two segment assertions failed (first byte not equal to
  `MAX_PACKET_LEN - 1`, or short packet). -/
  | malformedSegment : ReadError
  /-- The scripted input ran out while the loop still wanted a packet
  (the real blocking `read` would hang; never reached by the scripts
  considered here). -/
  | noInput : ReadError
deriving DecidableEq, Repr

/-- The segment-reading loop of `USBTransport._read` over a scripted
list of packets: stop when the last accumulated segment is
NUL-stripped-terminator-ended; raise after `MAX_SEGMENTS` segments;
check each packet's leading length byte and total length. -/
def readSegs : List (List Nat) → List (List Nat) → Except ReadError (List (List Nat))
  | acc, [] =>
    if segsDone acc then .ok acc
    else if acc.length + 1 > MAX_SEGMENTS then .error .tooManySegments
    else .error .noInput
  | acc, p :: rest =>
    if segsDone acc then .ok acc
    else if acc.length + 1 > MAX_SEGMENTS then .error .tooManySegments
    else if ¬ (p.head? = some (MAX_PACKET_LEN - 1)) then .error .malformedSegment
    else if ¬ (p.length = MAX_PACKET_LEN) then .error .malformedSegment
    else readSegs (acc ++ [p]) rest

/-- `USBTransport._read`: run the segment loop, join the segments'
contents (each without its leading length byte), strip trailing NULs,
and destuff. -/
def usbRead (input : List (List Nat)) : Except ReadError (List Nat) :=
  match readSegs [] input with
  | .error e => .error e
  | .ok segs => .ok (unescape (rstripNul (segs.map (fun s => s.drop 1)).flatten))

/-! ## Bus session: race and discovery (genlc/sam.py) -/

/-- Outcome of one `SAMGroup.race` call. -/
inductive RaceResult where
  /-- `GNetTimeoutException` propagated unchanged from `send_receive`. -/
  | timeout : RaceResult
  /-- `GNetException("Invalid response received to CID_RACE: ...")`. -/
  | protocolError (resp : List Nat) : RaceResult
  /-- The returned serial number. -/
  | serial (n : Nat) : RaceResult
deriving DecidableEq, Repr

/-- The `(address, command)` header of the frame `SAMGroup.race` sends:
`GNetMessage(const.GNET_BROADCAST_ADDR, const.CID_RACE)` (sam.py line 70,
asserted bit-exactly in `test_sam.py`). -/
def raceMessage : Nat × Nat := (GNET_BROADCAST_ADDR, CID_RACE)

/-- `SAMGroup.race` as a function of the transport's response: `none`
models `send_receive` raising `GNetTimeoutException` (re-raised
unchanged); `some r` is the parsed response payload, accepted as a
big-endian serial exactly when it is 3 bytes long. -/
def race (resp : Option (List Nat)) : RaceResult :=
  match resp with
  | none => .timeout
  | some r => if r.length = 3 then .serial (fromBytesBE r) else .protocolError r

/-- Observable events of the `discover_monitors` generator: a call to
`assign_address(serial, addr)` and a yielded `SAMMonitor(addr, serial)`. -/
inductive DiscoverEvent where
  | assign (serial addr : Nat) : DiscoverEvent
  | yieldMonitor (addr serial : Nat) : DiscoverEvent
deriving DecidableEq, Repr

/-- The `for addr in range(first_avail_addr, 128)` loop of
`discover_monitors`, with the race outcomes scripted: each iteration
consumes one script entry; `none` (a `GNetTimeoutException`) returns from
the generator, `some s` assigns `addr` to serial `s` and yields a
monitor.  The fuel argument is the number of addresses left in the range
(`128 - addr`); an exhausted script models a transport that never answers
(the loop would block), which the scripts considered here never reach. -/
def discoverLoop : List (Option Nat) → Nat → Nat → List DiscoverEvent
  | _, _, 0 => []
  | [], _, _ + 1 => []
  | none :: _, _, _ + 1 => []
  | some s :: rest, addr, remaining + 1 =>
      .assign s addr :: .yieldMonitor addr s :: discoverLoop rest (addr + 1) remaining

/-- Python's `max(collection, default=d)`: the default is ignored when
the collection is nonempty. -/
def pyMaxDefault (l : List Nat) (d : Nat) : Nat :=
  match l with
  | [] => d
  | x :: xs => xs.foldl max x

/-- `SAMGroup.discover_monitors(all=False)` as an event trace, given the
session's assigned addresses (`self.devices.keys()`) and the scripted
race outcomes.  `none` models the `assert first_avail_addr > 1` failing. -/
def discoverMonitors (devices : List Nat) (script : List (Option Nat)) :
    Option (List DiscoverEvent) :=
  let first := pyMaxDefault devices 1 + 1
  if first > 1 then some (discoverLoop script first (128 - first)) else none

/-- The trace the spec predicts for serials `s1..sN` starting at a given
address: assign-then-yield per serial, addresses consecutive. -/
def expectedTrace : List Nat → Nat → List DiscoverEvent
  | [], _ => []
  | s :: rest, addr =>
      .assign s addr :: .yieldMonitor addr s :: expectedTrace rest (addr + 1)

/-- Addresses of the yielded monitors, in order. -/
def yieldedAddrs (evs : List DiscoverEvent) : List Nat :=
  evs.filterMap fun e => match e with
    | .yieldMonitor addr _ => some addr
    | _ => none

/-- The `assign_address(serial, addr)` calls, in order. -/
def assignCalls (evs : List DiscoverEvent) : List (Nat × Nat) :=
  evs.filterMap fun e => match e with
    | .assign s a => some (s, a)
    | _ => none

/-! ## Device abstraction (genlc/sam.py, BaseDevice / USBAdapter) -/

/-- Find the first occurrence of byte `b`, returning the parts before
and after it. -/
def splitFirst (b : Nat) : List Nat → Option (List Nat × List Nat)
  | [] => none
  | c :: cs =>
    if c = b then some ([], cs)
    else
      match splitFirst b cs with
      | none => none
      | some (pre, post) => some (c :: pre, post)

/-- Python `split(sep, maxsplit)` with a single-byte separator: split
from the left on up to `k` occurrences of `b`. -/
def pySplitL (b : Nat) : Nat → List Nat → List (List Nat)
  | 0, l => [l]
  | k + 1, l =>
    match splitFirst b l with
    | none => [l]
    | some (pre, post) => pre :: pySplitL b k post

/-- Python `rsplit(sep, maxsplit)` with a single-byte separator: split
from the right on up to `k` occurrences of `b`. -/
def pyRsplit (b k : Nat) (l : List Nat) : List (List Nat) :=
  ((pySplitL b k l.reverse).map List.reverse).reverse

/-- `BaseDevice.query_hardware` field extraction on the response
payload:  `resp_msg.response.rstrip(b"\x00")` followed by
`hardware_str.rsplit(" ", 5)` (the UTF-8 decode is kept at byte level;
the separator `" "` is the byte `0x20`).  The resulting list of fields is
stored as `self.hardware` unconditionally. -/
def queryHardware (resp : List Nat) : List (List Nat) :=
  pyRsplit 0x20 5 (rstripNul resp)

/-- Value stored under a telemetry key by `USBAdapter.poll`: either the
SPL unit conversion `util.dBSPL_from_sint24(raw)` — excluded from the
core by the spec and therefore kept symbolic — or the literal fallback
`0`. -/
inductive MicValue where
  | dBSPL (raw : Int) : MicValue
  | zero : MicValue
deriving DecidableEq, Repr

/-- The fields dictionary built by `USBAdapter.poll`: decode the signed
24-bit big-endian value at `resp[3:6]` and map `"microphone_dBSPL"` to
its dBSPL conversion when strictly positive, to the literal `0`
otherwise. -/
def adapterPollFields (resp : List Nat) : List (String × MicValue) :=
  [("microphone_dBSPL",
    if sintFromBytesBE ((resp.drop 3).take 3) > 0 then
      .dBSPL (sintFromBytesBE ((resp.drop 3).take 3))
    else .zero)]

/-- Python `dict.update` on an association list (keys unique, insertion
order irrelevant per the spec): entries of `old` whose key is overwritten
by `upd` are replaced, all other entries are kept. -/
def dictUpdate (old upd : List (String × MicValue)) : List (String × MicValue) :=
  old.filter (fun kv => (upd.find? (fun kv2 => kv2.1 == kv.1)).isNone) ++ upd

/-! ## GNetMessage construction gating (GNetMessage.__init__, USBTransport.send) -/

/-- The mutable state of a `GNetMessage` right after `__init__`. -/
structure GNetMessage where
  address : Option Nat
  command : Option Nat
  data : List Nat
  msg : Option (List Nat)
deriving DecidableEq, Repr

/-- Python truthiness of an `Optional[int]`: `None` and `0` are falsy. -/
def pyTruthy : Option Nat → Bool
  | none => false
  | some n => n != 0

/-- `GNetMessage.__init__(address, command, data)`: stores the fields
and calls `construct()` right away iff `address and command` is truthy. -/
def GNetMessage.init (address command : Option Nat) (data : List Nat) : GNetMessage :=
  if pyTruthy address && pyTruthy command then
    { address := address, command := command, data := data,
      msg := some (construct (address.getD 0) (command.getD 0) data) }
  else
    { address := address, command := command, data := data, msg := none }

/-- `GNetMessage.__bytes__`: `assert self.msg, "Message was not
constructed yet"` — `none` models the assertion failure. -/
def GNetMessage.toBytes (m : GNetMessage) : Option (List Nat) := m.msg

/-- `GNetMessage.__len__`: same assertion, then the length. -/
def GNetMessage.pyLen (m : GNetMessage) : Option Nat := m.msg.map List.length

/-- `USBTransport.send`: `assert message.msg, "Message was not
constructed"`, then PPP-stuff and prefix `0x80 + len(escaped)`. -/
def usbSend (m : GNetMessage) : Option (List Nat) :=
  match m.msg with
  | none => none
  | some raw =>
    match escape raw with
    | none => none
    | some esc => some ((0x80 + esc.length) :: esc)

end Genlc

namespace Genlc

/-! ## Helper lemmas -/

/-- Unfolding of `construct` without the intermediate `let`s. -/
theorem construct_eq (a c : Nat) (d : List Nat) :
    construct a c d =
      (a :: c :: d) ++
        [gsm16 (a :: c :: d) / 256, gsm16 (a :: c :: d) % 256, GNET_TERM] := rfl

/-- Single-byte replacement distributes over concatenation. -/
theorem replaceByte_append (b : Nat) (r l1 l2 : List Nat) :
    replaceByte b r (l1 ++ l2) = replaceByte b r l1 ++ replaceByte b r l2 := by
  induction l1 with
  | nil => simp [replaceByte]
  | cons c cs ih =>
    by_cases h : c = b <;> simp [replaceByte, h, ih]

/-- The two sequential stuffing passes act bytewise: `0x7D ↦ 0x7D 0x5D`,
`0x7E ↦ 0x7D 0x5E`, anything else is kept. -/
theorem escapeBody_cons (c : Nat) (l : List Nat) :
    escapeBody (c :: l) =
      (if c = 0x7D then [0x7D, 0x5D]
       else if c = 0x7E then [0x7D, 0x5E] else [c]) ++ escapeBody l := by
  by_cases h1 : c = 0x7D
  · subst h1
    simp [escapeBody, replaceByte, replaceByte_append]
  · by_cases h2 : c = 0x7E
    · subst h2
      simp [escapeBody, replaceByte, replaceByte_append]
    · simp [escapeBody, replaceByte, h1, h2, replaceByte_append]

/-- A head byte that cannot start the needle is passed through. -/
theorem replacePair_cons_ne (p1 p2 q c : Nat) (l : List Nat) (h : ¬ c = p1) :
    replacePair p1 p2 q (c :: l) = c :: replacePair p1 p2 q l := by
  cases l with
  | nil => simp [replacePair]
  | cons d ds => simp [replacePair, h]

/-- A leading needle occurrence is replaced. -/
theorem replacePair_cons_match (p1 p2 q : Nat) (l : List Nat) :
    replacePair p1 p2 q (p1 :: p2 :: l) = q :: replacePair p1 p2 q l := by
  simp [replacePair]

/-- A head byte equal to the needle's first byte followed by a
non-matching second byte is passed through. -/
theorem replacePair_cons2_ne (p1 p2 q d : Nat) (l : List Nat) (h : ¬ d = p2) :
    replacePair p1 p2 q (p1 :: d :: l) = p1 :: replacePair p1 p2 q (d :: l) := by
  simp [replacePair, h]

/-- Core inversion: destuffing the stuffed body (with the terminator
reappended) recovers the original body. -/
theorem unescape_escapeBody (l : List Nat) :
    unescape (escapeBody l ++ [GNET_TERM]) = l ++ [GNET_TERM] := by
  induction l with
  | nil =>
    simp [escapeBody, replaceByte, unescape, replacePair, GNET_TERM]
  | cons c cs ih =>
    rw [escapeBody_cons]
    by_cases h1 : c = 0x7D
    · subst h1
      rw [if_pos rfl]
      show unescape (0x7D :: 0x5D :: (escapeBody cs ++ [GNET_TERM]))
          = 0x7D :: cs ++ [GNET_TERM]
      unfold unescape
      have hp1 : replacePair 0x7D 0x5E 0x7E (0x7D :: 0x5D :: (escapeBody cs ++ [GNET_TERM]))
          = 0x7D :: 0x5D :: replacePair 0x7D 0x5E 0x7E (escapeBody cs ++ [GNET_TERM]) := by
        rw [replacePair_cons2_ne _ _ _ _ _ (by decide)]
        rw [replacePair_cons_ne _ _ _ _ _ (by decide)]
      rw [hp1, replacePair_cons_match]
      exact congrArg _ ih
    · by_cases h2 : c = 0x7E
      · subst h2
        rw [if_neg (by decide), if_pos rfl]
        show unescape (0x7D :: 0x5E :: (escapeBody cs ++ [GNET_TERM]))
            = 0x7E :: cs ++ [GNET_TERM]
        unfold unescape
        rw [replacePair_cons_match]
        rw [replacePair_cons_ne _ _ _ _ _ (by decide)]
        exact congrArg _ ih
      · rw [if_neg h1, if_neg h2]
        show unescape (c :: (escapeBody cs ++ [GNET_TERM])) = c :: cs ++ [GNET_TERM]
        unfold unescape
        rw [replacePair_cons_ne _ _ _ _ _ h1]
        rw [replacePair_cons_ne _ _ _ _ _ h1]
        exact congrArg _ ih

/-- `parse` unfolded on a message of length at least two. -/
theorem parse_cons_cons (a b : Nat) (l : List Nat) :
    parse (a :: b :: l) =
      (if b = GNET_TIMEOUT then .error .timeout
       else if b ≠ GNET_ACK then .error (.protocolError b)
       else if (a :: b :: l).getLast? ≠ some GNET_TERM then .error .malformedFrame
       else if gsm16 ((a :: b :: l).take ((a :: b :: l).length - 3)) ≠
           fromBytesBE (((a :: b :: l).drop ((a :: b :: l).length - 3)).dropLast)
         then .error .checksumError
       else .ok (((a :: b :: l).take ((a :: b :: l).length - 3)).drop 2)) := rfl

/-- Parsing a frame built with the adapter address and ack status code
succeeds and returns exactly the frame's data field. -/
theorem parse_construct_ack (p : List Nat) :
    parse (construct 0x01 GNET_ACK p) = .ok p := by
  rw [construct_eq, List.cons_append, List.cons_append]
  rw [parse_cons_cons]
  set cs := gsm16 ((0x01 : Nat) :: GNET_ACK :: p) with hcsdef
  have hassoc : (0x01 : Nat) :: GNET_ACK :: (p ++ [cs / 256, cs % 256, GNET_TERM])
      = ((0x01 : Nat) :: GNET_ACK :: p) ++ [cs / 256, cs % 256, GNET_TERM] := by simp
  rw [hassoc]
  have hlen2 : ((((0x01 : Nat)) :: GNET_ACK :: p) ++
      [cs / 256, cs % 256, GNET_TERM]).length - 3 = p.length + 2 := by simp
  rw [hlen2]
  rw [List.take_left' (show ((0x01 : Nat) :: GNET_ACK :: p).length = p.length + 2 by simp)]
  rw [List.drop_left' (show ((0x01 : Nat) :: GNET_ACK :: p).length = p.length + 2 by simp)]
  rw [List.getLast?_append]
  have hcs : fromBytesBE [cs / 256, cs % 256] = cs := by
    have := Nat.div_add_mod cs 256
    simp [fromBytesBE]
    omega
  simp [show (GNET_ACK : Nat) ≠ GNET_TIMEOUT from by decide, hcs]

/-- Running the discovery loop on a script of successes followed by a
timeout, with enough addresses left in the range, produces the expected
assign/yield trace. -/
theorem discoverLoop_script (serials : List Nat) (addr fuel : Nat)
    (h : serials.length < fuel) :
    discoverLoop (serials.map some ++ [none]) addr fuel
      = expectedTrace serials addr := by
  induction serials generalizing addr fuel with
  | nil =>
    cases fuel with
    | zero => omega
    | succ k => simp [discoverLoop, expectedTrace]
  | cons s rest ih =>
    cases fuel with
    | zero => omega
    | succ k =>
      have hk : rest.length < k := by
        simp at h
        omega
      simp only [List.map_cons, List.cons_append, discoverLoop, expectedTrace,
        List.append_eq]
      rw [ih _ _ hk]

/-- The yielded addresses of the expected trace are consecutive starting
at the given address. -/
theorem yieldedAddrs_expectedTrace (serials : List Nat) (addr : Nat) :
    yieldedAddrs (expectedTrace serials addr)
      = List.range' addr serials.length := by
  induction serials generalizing addr with
  | nil => rfl
  | cons s rest ih =>
    show yieldedAddrs (.assign s addr :: .yieldMonitor addr s :: expectedTrace rest (addr + 1))
        = List.range' addr (rest.length + 1)
    rw [List.range'_succ]
    simp only [yieldedAddrs, List.filterMap_cons]
    exact congrArg _ (ih (addr + 1))

/-- The assign calls of the expected trace pair each serial with its
consecutive address. -/
theorem assignCalls_expectedTrace (serials : List Nat) (addr : Nat) :
    assignCalls (expectedTrace serials addr)
      = serials.zip (List.range' addr serials.length) := by
  induction serials generalizing addr with
  | nil => rfl
  | cons s rest ih =>
    show assignCalls (.assign s addr :: .yieldMonitor addr s :: expectedTrace rest (addr + 1))
        = (s :: rest).zip (List.range' addr (rest.length + 1))
    rw [List.range'_succ]
    simp only [assignCalls, List.filterMap_cons, List.zip_cons_cons]
    exact congrArg _ (ih (addr + 1))

/-- Folding `max` over a list of ones stays at one. -/
theorem foldl_max_all_one (xs : List Nat) (h : ∀ a ∈ xs, a = 1) :
    xs.foldl max 1 = 1 := by
  induction xs with
  | nil => rfl
  | cons x xs ih =>
    have hx : x = 1 := h x (by simp)
    subst hx
    simp only [List.foldl_cons, max_self]
    exact ih (fun a ha => h a (by simp [ha]))

/-- Stripping NULs from a concatenation whose second part strips to
nothing strips the first part. -/
theorem rstripNul_append_nil (l1 l2 : List Nat) (h : rstripNul l2 = []) :
    rstripNul (l1 ++ l2) = rstripNul l1 := by
  unfold rstripNul at *
  rw [List.reverse_append, List.dropWhile_append]
  rw [if_pos (by rw [List.isEmpty_iff, ← List.reverse_eq_nil_iff]; exact h)]

/-- Stripping NULs from a concatenation whose second part keeps content
leaves the first part intact. -/
theorem rstripNul_append_ne (l1 l2 : List Nat) (h : ¬ rstripNul l2 = []) :
    rstripNul (l1 ++ l2) = l1 ++ rstripNul l2 := by
  unfold rstripNul at *
  rw [List.reverse_append, List.dropWhile_append]
  rw [if_neg (by rw [List.isEmpty_iff, ← List.reverse_eq_nil_iff]; exact h)]
  rw [List.reverse_append, List.reverse_reverse]

/-- The last byte of a NUL-stripped list after prepending one non-NUL
byte. -/
theorem rstripNul_cons_getLast (a : Nat) (ha : ¬ a = 0) (c : List Nat) :
    (rstripNul (a :: c)).getLast? =
      (if rstripNul c = [] then some a else (rstripNul c).getLast?) := by
  have hsplit : a :: c = [a] ++ c := rfl
  rw [hsplit]
  by_cases h : rstripNul c = []
  · rw [rstripNul_append_nil _ _ h, if_pos h]
    unfold rstripNul
    simp [List.dropWhile_cons, ha]
  · rw [rstripNul_append_ne _ _ h, if_neg h]
    rw [List.getLast?_append]
    cases hc : (rstripNul c).getLast? with
    | none =>
      exfalso
      exact h (List.getLast?_eq_none_iff.mp hc)
    | some x => simp

/-- The loop guard on a raw `63`-prefixed packet is the guard on its
content. -/
theorem segDone_packet (c : List Nat) :
    segDone (63 :: c) = ((rstripNul c).getLast? == some GNET_TERM) := by
  unfold segDone
  rw [rstripNul_cons_getLast 63 (by decide) c]
  by_cases h : rstripNul c = []
  · rw [if_pos h, h]
    decide
  · rw [if_neg h]

/-- One successful read step of the segment loop. -/
theorem readSegs_step (acc : List (List Nat)) (p : List Nat) (rest : List (List Nat))
    (hdone : segsDone acc = false) (hcnt : ¬ acc.length + 1 > MAX_SEGMENTS)
    (hp : p.head? = some (MAX_PACKET_LEN - 1)) (hplen : p.length = MAX_PACKET_LEN) :
    readSegs acc (p :: rest) = readSegs (acc ++ [p]) rest := by
  rw [readSegs]
  simp [hdone, hcnt, hp, hplen]

/-- The segment loop stops as soon as the guard holds. -/
theorem readSegs_stop (acc : List (List Nat)) (input : List (List Nat))
    (hdone : segsDone acc = true) :
    readSegs acc input = .ok acc := by
  cases input <;> (rw [readSegs]; simp [hdone])

/-- The segment loop raises once another segment would exceed the
maximum. -/
theorem readSegs_over (acc : List (List Nat)) (input : List (List Nat))
    (hdone : segsDone acc = false) (hcnt : acc.length + 1 > MAX_SEGMENTS) :
    readSegs acc input = .error .tooManySegments := by
  cases input <;> (rw [readSegs]; simp [hdone, hcnt])

/-- The guard after appending a segment inspects exactly that segment. -/
theorem segsDone_append_one (acc : List (List Nat)) (p : List Nat) :
    segsDone (acc ++ [p]) = segDone p := by
  unfold segsDone
  rw [List.getLast?_concat]

/-- The guard is false before the first read. -/
theorem segsDone_nil : segsDone [] = false := rfl

/-- `pySplitL` produces between `1` and `k + 1` parts. -/
theorem pySplitL_length_bounds (b : Nat) (k : Nat) (l : List Nat) :
    1 ≤ (pySplitL b k l).length ∧ (pySplitL b k l).length ≤ k + 1 := by
  induction k generalizing l with
  | zero => simp [pySplitL]
  | succ n ih =>
    rw [pySplitL]
    cases h : splitFirst b l with
    | none => simp
    | some pr =>
      obtain ⟨pre, post⟩ := pr
      have := ih post
      constructor
      · simp
      · simp only [List.length_cons]
        omega

end Genlc

namespace Genlc

/-! ## Claim theorems -/

/-- C3: building with address `0x02`, command `0x08`, empty payload gives
`02 08 18 95 7E`; with address `0xFF`, command `0x04`, payload `"ab"`
gives `FF 04 61 62 1C 63 7E` (CRC-16/GSM big-endian + terminator). -/
theorem construct_crc_determinism :
    construct 0x02 0x08 [] = [0x02, 0x08, 0x18, 0x95, 0x7E] ∧
    construct 0xFF 0x04 [0x61, 0x62] = [0xFF, 0x04, 0x61, 0x62, 0x1C, 0x63, 0x7E] := by
  constructor <;> rfl

/-- C5: a raw response message of length at least two whose status byte
(at index 1) equals the timeout code is parsed as `Timeout`, regardless of
the remaining bytes, the terminator, or checksum correctness. -/
theorem parse_timeout_precedence (b0 : Nat) (rest : List Nat) :
    parse (b0 :: GNET_TIMEOUT :: rest) = .error .timeout := by
  simp [parse]

/-- C1: frame codec round-trip — for every address and command in
`[0,255]` and payload of length `0..250` (byte values), building the frame
and feeding a synthetically ack-wrapped version of the built output back
through `parse` recovers exactly the original payload. -/
theorem frame_roundtrip (address command : Nat) (payload : List Nat)
    (h1 : address ≤ 255) (h2 : command ≤ 255)
    (h3 : ∀ b ∈ payload, b ≤ 255) (h4 : payload.length ≤ 250) :
    parse (ackWrap (construct address command payload)) = .ok payload := by
  have hfield : ((construct address command payload).take
      ((construct address command payload).length - 3)).drop 2 = payload := by
    rw [construct_eq]
    have hlen : ((address :: command :: payload) ++
        [gsm16 (address :: command :: payload) / 256,
          gsm16 (address :: command :: payload) % 256, GNET_TERM]).length - 3
        = payload.length + 2 := by simp
    rw [hlen]
    rw [List.take_left'
      (show (address :: command :: payload).length = payload.length + 2 by simp)]
    rfl
  rw [ackWrap, hfield, parse_construct_ack]

/-- C1 witness: the round-trip at address `0x02`, command `0x08`, payload
`[0x61]`. -/
theorem frame_roundtrip_witness :
    parse (ackWrap (construct 0x02 0x08 [0x61])) = .ok [0x61] :=
  frame_roundtrip 0x02 0x08 [0x61] (by decide) (by decide) (by decide) (by decide)

/-- C2: byte-stuffing invertibility — for every byte sequence ending in
the terminator byte `0x7E`, destuffing the stuffed sequence recovers the
original (`escape` models the source's assertion that the input ends with
the terminator by returning `none` otherwise). -/
theorem stuffing_invertibility (x : List Nat) (h : x.getLast? = some GNET_TERM) :
    (escape x).map unescape = some x := by
  rw [escape, if_pos h]
  have hx : x ≠ [] := by
    intro e
    rw [e] at h
    simp at h
  have hsplit : x.dropLast ++ [GNET_TERM] = x := by
    have hlast : x.getLast hx = GNET_TERM := by
      have hq := List.getLast?_eq_getLast x hx
      rw [hq] at h
      exact (Option.some_injective _ h.symm).symm
    conv_rhs => rw [← List.dropLast_append_getLast hx]
    rw [hlast]
  show some (unescape (escapeBody x.dropLast ++ [GNET_TERM])) = some x
  rw [unescape_escapeBody, hsplit]

/-- C2 witness: invertibility at the concrete sequence
`7D 7E 5E 5D 7E` (containing both escaped values and lookalike bytes). -/
theorem stuffing_invertibility_witness :
    (escape [0x7D, 0x7E, 0x5E, 0x5D, 0x7E]).map unescape
      = some [0x7D, 0x7E, 0x5E, 0x5D, 0x7E] :=
  stuffing_invertibility [0x7D, 0x7E, 0x5E, 0x5D, 0x7E] (by decide)

/-- C4 (amended): starting from a session whose mapping contains no
address other than (possibly) the adapter address 1, if `race` succeeds
`N ≤ 125` times with serials `s1..sN` and then signals a timeout, the
discovery generator yields exactly `N` monitors at strictly increasing
consecutive addresses `2..N+1`, calling `assign_address` exactly once
per yielded monitor with that monitor's serial and address, so no
address is ever reused within the session. -/
theorem discover_invariant (devices serials : List Nat)
    (hdev : ∀ a ∈ devices, a = 1) (hn : serials.length ≤ 125) :
    discoverMonitors devices (serials.map some ++ [none])
        = some (expectedTrace serials 2) ∧
    yieldedAddrs (expectedTrace serials 2) = List.range' 2 serials.length ∧
    assignCalls (expectedTrace serials 2)
        = serials.zip (List.range' 2 serials.length) := by
  have hmax : pyMaxDefault devices 1 = 1 := by
    cases devices with
    | nil => rfl
    | cons x xs =>
      have hx : x = 1 := hdev x (by simp)
      subst hx
      exact foldl_max_all_one xs (fun a ha => hdev a (by simp [ha]))
  refine ⟨?_, yieldedAddrs_expectedTrace serials 2, assignCalls_expectedTrace serials 2⟩
  show (if pyMaxDefault devices 1 + 1 > 1 then
      some (discoverLoop (serials.map some ++ [none]) (pyMaxDefault devices 1 + 1)
        (128 - (pyMaxDefault devices 1 + 1)))
    else none) = some (expectedTrace serials 2)
  rw [hmax, if_pos (by norm_num)]
  exact congrArg some (discoverLoop_script serials 2 (128 - (1 + 1)) (by omega))

/-- C4 witness: a session holding only the adapter (address 1) and two
racing serials. -/
theorem discover_invariant_witness :
    discoverMonitors [1] [some 10, some 11, none]
      = some [.assign 10 2, .yieldMonitor 2 10, .assign 11 3, .yieldMonitor 3 11] :=
  ((discover_invariant [1] [10, 11] (by decide) (by decide)).1).trans (by decide)

/-- C4 counterexample to the claim as stated: a session whose mapping
holds the single address 0 — which is "no device address above 1" —
makes `discover_monitors` fail its `assert first_avail_addr > 1`
(Python's `max(keys, default=1)` ignores the default on a nonempty
mapping), instead of yielding the zero new devices the claim promises. -/
theorem discover_addr_zero_counterexample :
    discoverMonitors [0] [none] = none ∧ (0 : Nat) ≤ 1 := by
  constructor
  · decide
  · decide

/-- C6 counterexample to the claim as stated: the discovery frame `race`
sends is addressed to the broadcast address `0xFF`, not the
multicast/unassigned address `0xF0` (sam.py line 70 uses
`GNET_BROADCAST_ADDR`; `test_sam.py` asserts `GNetMessage(0xFF, 0xFE)`). -/
theorem race_multicast_counterexample :
    raceMessage.1 = GNET_BROADCAST_ADDR ∧ GNET_BROADCAST_ADDR ≠ GNET_MULTICAST_ADDR := by
  constructor
  · rfl
  · decide

/-- C6 (amended): every frame sent by `race` is addressed to the
broadcast address `0xFF` with the discovery command; a successful
exchange returns the responder's 3-byte big-endian serial number, a
response whose payload is not exactly 3 bytes signals a protocol error,
and a transport timeout propagates as `Timeout`. -/
theorem race_broadcast_addressing (r : List Nat) :
    raceMessage = (GNET_BROADCAST_ADDR, CID_RACE) ∧
    race none = .timeout ∧
    (r.length = 3 → race (some r) = .serial (fromBytesBE r)) ∧
    (r.length ≠ 3 → race (some r) = .protocolError r) := by
  refine ⟨rfl, rfl, fun h => ?_, fun h => ?_⟩
  · simp [race, h]
  · simp [race, h]

/-- C6 witness: the 3-byte response `01 02 03` yields serial `0x010203`;
a 2-byte response is rejected. -/
theorem race_broadcast_addressing_witness :
    race (some [0x01, 0x02, 0x03]) = .serial 0x010203 ∧
    race (some [0x01, 0x02]) = .protocolError [0x01, 0x02] :=
  ⟨((race_broadcast_addressing [0x01, 0x02, 0x03]).2.2.1 (by decide)).trans (by decide),
   (race_broadcast_addressing [0x01, 0x02]).2.2.2 (by decide)⟩

/-- C7 (amended): (i) two 64-byte packets — the first of whose contents,
NUL-stripped, does not yet end in the terminator — whose concatenated
contents (length bytes stripped, trailing NULs stripped) end in the
terminator are reassembled into one logical destuffed message; (ii) a
third packet is still read normally when it supplies the terminator
(`MAX_SEGMENTS = 3`); (iii) only when a fourth packet would be required
before a terminator appears does the transport signal
`TooManySegments`. -/
theorem segmented_receive (c1 c2 c3 : List Nat)
    (h1 : c1.length = 63) (h2 : c2.length = 63) (h3 : c3.length = 63) :
    (¬ (rstripNul c1).getLast? = some GNET_TERM →
     (rstripNul (c1 ++ c2)).getLast? = some GNET_TERM →
     usbRead [63 :: c1, 63 :: c2] = .ok (unescape (rstripNul (c1 ++ c2)))) ∧
    (¬ (rstripNul c1).getLast? = some GNET_TERM →
     ¬ (rstripNul c2).getLast? = some GNET_TERM →
     (rstripNul c3).getLast? = some GNET_TERM →
     usbRead [63 :: c1, 63 :: c2, 63 :: c3]
       = .ok (unescape (rstripNul (c1 ++ c2 ++ c3)))) ∧
    (¬ (rstripNul c1).getLast? = some GNET_TERM →
     ¬ (rstripNul c2).getLast? = some GNET_TERM →
     ¬ (rstripNul c3).getLast? = some GNET_TERM →
     usbRead [63 :: c1, 63 :: c2, 63 :: c3] = .error .tooManySegments) := by
  refine ⟨fun hn1 hcat => ?_, fun hn1 hn2 ht3 => ?_, fun hn1 hn2 hn3 => ?_⟩
  · have hc2 : (rstripNul c2).getLast? = some GNET_TERM := by
      by_cases h : rstripNul c2 = []
      · exfalso
        rw [rstripNul_append_nil _ _ h] at hcat
        exact hn1 hcat
      · rw [rstripNul_append_ne _ _ h, List.getLast?_append] at hcat
        cases hx : (rstripNul c2).getLast? with
        | none => exact absurd (List.getLast?_eq_none_iff.mp hx) h
        | some v =>
          rw [hx] at hcat
          simpa using hcat
    have hread : readSegs [] [63 :: c1, 63 :: c2] = .ok [63 :: c1, 63 :: c2] := by
      rw [readSegs_step [] (63 :: c1) [63 :: c2] segsDone_nil (by decide) rfl
        (by simp [h1, MAX_PACKET_LEN])]
      rw [readSegs_step _ (63 :: c2) []
        (by rw [segsDone_append_one, segDone_packet]; exact beq_eq_false_iff_ne.mpr hn1)
        (by simp [MAX_SEGMENTS]) rfl (by simp [h2, MAX_PACKET_LEN])]
      rw [readSegs_stop _ _
        (by rw [segsDone_append_one, segDone_packet]; exact beq_iff_eq.mpr hc2)]
      simp
    unfold usbRead
    rw [hread]
    simp
  · have hread : readSegs [] [63 :: c1, 63 :: c2, 63 :: c3]
        = .ok [63 :: c1, 63 :: c2, 63 :: c3] := by
      rw [readSegs_step [] (63 :: c1) [63 :: c2, 63 :: c3] segsDone_nil (by decide) rfl
        (by simp [h1, MAX_PACKET_LEN])]
      rw [readSegs_step _ (63 :: c2) [63 :: c3]
        (by rw [segsDone_append_one, segDone_packet]; exact beq_eq_false_iff_ne.mpr hn1)
        (by simp [MAX_SEGMENTS]) rfl (by simp [h2, MAX_PACKET_LEN])]
      rw [readSegs_step _ (63 :: c3) []
        (by rw [segsDone_append_one, segDone_packet]; exact beq_eq_false_iff_ne.mpr hn2)
        (by simp [MAX_SEGMENTS]) rfl (by simp [h3, MAX_PACKET_LEN])]
      rw [readSegs_stop _ _
        (by rw [segsDone_append_one, segDone_packet]; exact beq_iff_eq.mpr ht3)]
      simp
    unfold usbRead
    rw [hread]
    simp
  · have hread : readSegs [] [63 :: c1, 63 :: c2, 63 :: c3]
        = .error .tooManySegments := by
      rw [readSegs_step [] (63 :: c1) [63 :: c2, 63 :: c3] segsDone_nil (by decide) rfl
        (by simp [h1, MAX_PACKET_LEN])]
      rw [readSegs_step _ (63 :: c2) [63 :: c3]
        (by rw [segsDone_append_one, segDone_packet]; exact beq_eq_false_iff_ne.mpr hn1)
        (by simp [MAX_SEGMENTS]) rfl (by simp [h2, MAX_PACKET_LEN])]
      rw [readSegs_step _ (63 :: c3) []
        (by rw [segsDone_append_one, segDone_packet]; exact beq_eq_false_iff_ne.mpr hn2)
        (by simp [MAX_SEGMENTS]) rfl (by simp [h3, MAX_PACKET_LEN])]
      rw [readSegs_over _ []
        (by rw [segsDone_append_one, segDone_packet]; exact beq_eq_false_iff_ne.mpr hn3)
        (by simp [MAX_SEGMENTS])]
    unfold usbRead
    rw [hread]

/-- C7 witness: a packet of 63 one-bytes followed by a packet whose
content begins with the terminator reassemble into one message. -/
theorem segmented_receive_witness :
    usbRead [63 :: List.replicate 63 1, 63 :: (0x7E :: List.replicate 62 0)]
      = .ok (unescape (rstripNul (List.replicate 63 1 ++ (0x7E :: List.replicate 62 0)))) :=
  (segmented_receive (List.replicate 63 1) (0x7E :: List.replicate 62 0)
      (List.replicate 63 0) (by decide) (by decide) (by decide)).1
    (by decide) (by decide)

/-- C7 counterexample to the claim as stated: with `MAX_SEGMENTS = 3`, a
third packet required before a terminator appears is read normally — two
all-ones packets followed by a terminator-carrying third packet yield a
reassembled message, not `TooManySegments`. -/
theorem segmented_receive_counterexample :
    usbRead [63 :: List.replicate 63 1, 63 :: List.replicate 63 1,
        63 :: (0x7E :: List.replicate 62 0)]
      = .ok (List.replicate 126 1 ++ [0x7E]) := by
  rfl

/-- C8 (amended): `query_hardware` NUL-strips the decoded response and
splits it on spaces from the right with at most five splits, storing the
resulting tuple as-is — always between one and six fields; a response
with fewer than five fields is stored silently (a no-space string gives a
1-tuple) and one with five or more spaces gives six fields. -/
theorem query_hardware_shape (resp : List Nat) :
    (1 ≤ (queryHardware resp).length ∧ (queryHardware resp).length ≤ 6) ∧
    queryHardware [0x31, 0x20, 0x32, 0x20, 0x33, 0x20, 0x34, 0x20, 0x35]
      = [[0x31], [0x32], [0x33], [0x34], [0x35]] ∧
    queryHardware [0x31, 0x20, 0x32, 0x20, 0x33, 0x20, 0x34, 0x20, 0x35, 0x20, 0x36]
      = [[0x31], [0x32], [0x33], [0x34], [0x35], [0x36]] := by
  refine ⟨?_, by decide, by decide⟩
  unfold queryHardware pyRsplit
  have hb := pySplitL_length_bounds 0x20 5 (rstripNul resp).reverse
  simp only [List.length_reverse, List.length_map]
  omega

/-- C8 counterexample to the claim as stated: the two-byte response
`"AB"` has no spaces, so `query_hardware` silently stores the 1-tuple
`("AB",)` — fewer than five fields is not treated as a
malformed-response condition (`tuple(hardware_str.rsplit(" ", 5))` has
no length check). -/
theorem query_hardware_counterexample :
    queryHardware [0x41, 0x42] = [[0x41, 0x42]] ∧
    ([[0x41, 0x42]] : List (List Nat)).length ≠ 5 := by
  constructor
  · rfl
  · decide

/-- C9 (amended): `USBAdapter.poll` always reports the
`"microphone_dBSPL"` field — with the decoded dBSPL conversion when the
signed 24-bit value at `resp[3:6]` is strictly positive, and with the
literal value `0` otherwise (the key is not suppressed) — and the update
merges into the cumulative mapping, preserving every entry under a
different key. -/
theorem adapter_poll_mic (resp : List Nat) (old : List (String × MicValue)) :
    (sintFromBytesBE ((resp.drop 3).take 3) > 0 →
      adapterPollFields resp
        = [("microphone_dBSPL", .dBSPL (sintFromBytesBE ((resp.drop 3).take 3)))]) ∧
    (¬ sintFromBytesBE ((resp.drop 3).take 3) > 0 →
      adapterPollFields resp = [("microphone_dBSPL", .zero)]) ∧
    (∀ kv ∈ old, ¬ kv.1 = "microphone_dBSPL" →
      kv ∈ dictUpdate old (adapterPollFields resp)) ∧
    ("microphone_dBSPL",
      if sintFromBytesBE ((resp.drop 3).take 3) > 0 then
        MicValue.dBSPL (sintFromBytesBE ((resp.drop 3).take 3))
      else MicValue.zero) ∈ dictUpdate old (adapterPollFields resp) := by
  refine ⟨fun h => by simp [adapterPollFields, h],
    fun h => by simp [adapterPollFields, h], ?_, ?_⟩
  · intro kv hkv hne
    apply List.mem_append_left
    rw [List.mem_filter]
    refine ⟨hkv, ?_⟩
    simp only [adapterPollFields, List.find?, Option.isNone_iff_eq_none]
    rw [show ("microphone_dBSPL" == kv.1) = false from
      beq_eq_false_iff_ne.mpr (fun h => hne h.symm)]
  · apply List.mem_append_right
    simp [adapterPollFields]

/-- C9 witness: a positive raw value reports the conversion, a zero raw
value reports the literal 0, and a foreign key survives the merge. -/
theorem adapter_poll_mic_witness :
    adapterPollFields [0, 0, 0, 0, 0, 1] = [("microphone_dBSPL", .dBSPL 1)] ∧
    adapterPollFields (List.replicate 13 0) = [("microphone_dBSPL", .zero)] ∧
    ("temperature", MicValue.zero) ∈
      dictUpdate [("temperature", MicValue.zero)] (adapterPollFields (List.replicate 13 0)) :=
  ⟨((adapter_poll_mic [0, 0, 0, 0, 0, 1] []).1 (by decide)).trans (by rfl),
   (adapter_poll_mic (List.replicate 13 0) []).2.1 (by decide),
   (adapter_poll_mic (List.replicate 13 0) [("temperature", MicValue.zero)]).2.2.1
     ("temperature", MicValue.zero) (by simp) (by simp)⟩

/-- C9 counterexample to the claim as stated: a poll response whose
signed 24-bit SPL value is zero still stores a `"microphone_dBSPL"`
entry — with value `0` — in the fields dictionary merged into
`self.poll_fields`; the mapping does gain an entry for it. -/
theorem adapter_poll_mic_counterexample :
    sintFromBytesBE (((List.replicate 13 0).drop 3).take 3) = 0 ∧
    adapterPollFields (List.replicate 13 0) = [("microphone_dBSPL", MicValue.zero)] ∧
    dictUpdate [] (adapterPollFields (List.replicate 13 0)) ≠ [] := by
  refine ⟨by decide, rfl, ?_⟩
  decide

/-- C10: `GNetMessage.__init__` gates auto-construction on Python
truthiness — with both address and command supplied, the frame is built
iff both are non-zero; with either equal to zero, `__bytes__`,
`__len__` and `USBTransport.send` all fail their not-constructed
assertion even though both fields are set. -/
theorem construction_truthiness (a c : Nat) (d : List Nat) :
    ((GNetMessage.init (some a) (some c) d).msg.isSome = true ↔ (a ≠ 0 ∧ c ≠ 0)) ∧
    (a = 0 ∨ c = 0 →
      (GNetMessage.init (some a) (some c) d).toBytes = none ∧
      (GNetMessage.init (some a) (some c) d).pyLen = none ∧
      usbSend (GNetMessage.init (some a) (some c) d) = none) := by
  constructor
  · by_cases ha : a = 0
    · subst ha
      simp [GNetMessage.init, pyTruthy]
    · by_cases hc : c = 0
      · subst hc
        simp [GNetMessage.init, pyTruthy]
      · simp [GNetMessage.init, pyTruthy, ha, hc]
  · intro h
    have hfalse : (pyTruthy (some a) && pyTruthy (some c)) = false := by
      rcases h with h | h <;> subst h <;> simp [pyTruthy]
    simp [GNetMessage.toBytes, GNetMessage.pyLen, usbSend, GNetMessage.init, hfalse]

/-- C10 witness: address 0 with command 8 — both supplied, both in
range — leaves the message unconstructed and sending fails. -/
theorem construction_truthiness_witness :
    (GNetMessage.init (some 0) (some 8) []).toBytes = none ∧
    usbSend (GNetMessage.init (some 0) (some 8) []) = none :=
  ⟨((construction_truthiness 0 8 []).2 (Or.inl rfl)).1,
   ((construction_truthiness 0 8 []).2 (Or.inl rfl)).2.2⟩

end Genlc
